import Mathlib

/-!
Verification development for the Komomo-Extra configuration core: a shallow
embedding of the reactive file-backed `Config` store (`src/index.ts`, the
jsonc-parser based version), its `Language` / `I18n` consumers, and the
diagnostic helper `getLineAndColumnNumber`, together with theorems settling
the specification claims about them.

Modelling conventions:
- JSON-like values are the inductive `JValue`; objects are association lists
  of string keys in insertion order. JavaScript objects have at most one own
  property per key (and jsonc.parse keeps one entry per key), so object
  field lists never carry duplicate keys; `keysNodup` states that where a
  theorem needs it.
- Text blobs are abstracted to their parsed logical value: `JText.val v` is
  any well-formed text whose parse result is `v`, `JText.bad raw` is text
  with parse errors (the raw text is carried so renames preserve content),
  `JText.emptyText` is the empty file created by fs.ensureFile.
- JavaScript exceptions are `Except` values; the state at the throw point is
  carried in the error so the catch handler of `Config.load` sees it.
- chokidar, fs-extra and jsonc-parser are external packages: only the
  behavior the source relies on is modelled (event callbacks, rename, write,
  and the value-level effect of jsonc.modify / jsonc.format /
  jsonc.applyEdits; format and applyEdits preserve the parsed value, so the
  cache is tracked at value level).
-/

/-- JSON-like structured value: the shape of configuration data. -/
inductive JValue where
  | null
  | bool (b : Bool)
  | num (n : Int)
  | str (s : String)
  | arr (xs : List JValue)
  | obj (fields : List (String × JValue))

/-- Fields of a JSON object: an association list in insertion order. -/
abbrev JObj := List (String × JValue)

/-- JavaScript property assignment `target[k] = v` on an object whose own
enumerable fields are `fields` (duplicate-free, as JS objects are): an
existing key keeps its position and gets the new value, a new key is
appended. -/
def setKey {α : Type} : List (String × α) → String → α → List (String × α)
  | [], k, v => [(k, v)]
  | p :: t, k, v => if p.1 == k then (k, v) :: t else p :: setKey t k v

/-- Shallow `Object.assign(target, src)`: every own enumerable field of
`src` is assigned into `target`, in order. This is the whole-object merge
that `Config.load` performs via `Object.assign(this.#config, configData)`. -/
def objAssign {α : Type} (target src : List (String × α)) :
    List (String × α) :=
  src.foldl (fun acc p => setKey acc p.1 p.2) target

/-- Keys of an association list are pairwise distinct. -/
def keysNodup {α : Type} (fields : List (String × α)) : Prop :=
  (fields.map Prod.fst).Nodup

theorem lookup_setKey_self {α : Type} (l : List (String × α)) (k : String)
    (v : α) : (setKey l k v).lookup k = some v := by
  induction l with
  | nil => simp [setKey]
  | cons p t ih =>
    by_cases h : p.1 == k
    · simp [setKey, h]
    · have hk : (k == p.1) = false :=
        beq_false_of_ne fun he => absurd (show (p.1 == k) = true by simp [he]) h
      simp only [setKey, h, Bool.false_eq_true, if_false]
      cases p with
      | mk pk pv => rw [List.lookup_cons]; simpa [hk] using ih

theorem lookup_setKey_ne {α : Type} (l : List (String × α)) (k q : String)
    (v : α) (h : q ≠ k) : (setKey l k v).lookup q = l.lookup q := by
  induction l with
  | nil => simp [setKey, List.lookup_cons, beq_false_of_ne h]
  | cons p t ih =>
    cases p with
    | mk pk pv =>
      by_cases hp : pk == k
      · have hpk : pk = k := by simpa using hp
        simp [setKey, hp, List.lookup_cons, beq_false_of_ne h,
          beq_false_of_ne (show q ≠ pk from hpk ▸ h)]
      · simp only [setKey, hp, Bool.false_eq_true, if_false]
        rw [List.lookup_cons, List.lookup_cons]
        cases hq : q == pk <;> simp [ih]

/-- Lookup characterization of the shallow merge: a key present in `src`
gets the `src` value (the file wins wholesale), and a key absent from `src`
keeps the `target` value (the default entry is retained). -/
theorem lookup_objAssign {α : Type} (target src : List (String × α))
    (hs : keysNodup src) (k : String) :
    (objAssign target src).lookup k = (src.lookup k).or (target.lookup k) := by
  induction src generalizing target with
  | nil => simp [objAssign]
  | cons p t ih =>
    have hs2 : (p.1 :: t.map Prod.fst).Nodup := hs
    have hcons := List.nodup_cons.mp hs2
    have hn : keysNodup t := hcons.2
    have hp : p.1 ∉ t.map Prod.fst := hcons.1
    show (objAssign (setKey target p.1 p.2) t).lookup k = _
    rw [ih _ hn]
    cases p with
    | mk pk pv =>
      by_cases hk : k = pk
      · subst hk
        have ht : t.lookup k = none := by
          simp only [List.lookup_eq_none_iff]
          intro q hq
          simpa using fun he => hp (by simpa [← he] using List.mem_map_of_mem Prod.fst hq)
        rw [ht, lookup_setKey_self]
        simp [List.lookup_cons]
      · rw [lookup_setKey_ne _ _ _ _ hk, List.lookup_cons]
        simp [beq_false_of_ne hk]

/-! ## String primitives used by the source

JavaScript string operations the source relies on, embedded over `List Char`
so that concrete evaluation is kernel-reducible. JS string lengths and
offsets are UTF-16 units; the inputs in the theorems below are ASCII, where
they agree with character counts. -/

/-- Whether the character list starts with the pattern. -/
def charsStartsWith : List Char → List Char → Bool
  | _, [] => true
  | [], _ :: _ => false
  | c :: cs, p :: ps => c == p && charsStartsWith cs ps

/-- Fuel-indexed scan replacing each non-overlapping occurrence of `pat`
(nonempty) by `rep`, scanning left to right: the JS idiom
`s.split(pat).join(rep)` used by Language.translate. -/
def replaceAllAux (pat rep : List Char) : Nat → List Char → List Char
  | 0, s => s
  | _ + 1, [] => []
  | fuel + 1, c :: cs =>
    if charsStartsWith (c :: cs) pat && !pat.isEmpty then
      rep ++ replaceAllAux pat rep fuel (List.drop pat.length (c :: cs))
    else
      c :: replaceAllAux pat rep fuel cs

/-- JavaScript `s.split(pat).join(rep)` for a nonempty pattern. -/
def jsReplaceAll (s pat rep : String) : String :=
  String.mk (replaceAllAux pat.data rep.data s.data.length s.data)

/-- Whether `pat` occurs as a contiguous substring of the character list. -/
def hasSubstringChars (pat : List Char) : List Char → Bool
  | [] => charsStartsWith [] pat
  | c :: cs => charsStartsWith (c :: cs) pat || hasSubstringChars pat cs

/-- JavaScript `str.split("\n")`: split at every newline character. -/
def splitOnNewline : List Char → List (List Char)
  | [] => [[]]
  | c :: cs =>
    match splitOnNewline cs with
    | [] => [[]]
    | l :: ls => if c = Char.ofNat 10 then [] :: l :: ls else (c :: l) :: ls

/-! ## Language.translate and the I18n registry (src/ConfigManager/I18n.ts) -/

/-- Language dictionary: the flat string-to-string config value backing a
`Language` store. -/
abbrev LangDict := List (String × String)

/-- Positional placeholder token for index `i`: an open brace, the decimal
index, a close brace. -/
def placeholderToken (i : Nat) : String := "\x7b" ++ toString i ++ "\x7d"

/-- Substitution loop of Language.translate: one whole-string replacement
pass per data element, index increasing from `start` (0 at the call site). -/
def substPasses (start : Nat) : List String → String → String
  | [], r => r
  | d :: ds, r => substPasses (start + 1) ds (jsReplaceAll r (placeholderToken start) d)

/-- Model of Language.translate: look the key up in the live dictionary; a
falsy result (key absent, or mapped to the empty string) returns the key
itself; otherwise run the substitution passes. Data elements are already
strings (the source coerces arbitrary values with String conversion). -/
def Language.translate (dict : LangDict) (key : String) (data : List String) : String :=
  let result := (dict.lookup key).getD ""
  if result = "" then key
  else substPasses 0 data result

/-- Registry state of I18n: the loaded languages keyed by code (the private
languages map), and the active code. Each loaded language is represented by
the dictionary its store currently holds. -/
structure I18nState where
  languages : List (String × LangDict)
  localLangCode : String

/-- JavaScript `langCode || this.localLangCode`: an absent or empty code
falls back to the active one. -/
def effectiveCode (st : I18nState) (langCode : Option String) : String :=
  match langCode with
  | none => st.localLangCode
  | some c => if c = "" then st.localLangCode else c

/-- Message thrown by I18n.get when the lookup fails. The template in the
source interpolates the variable that holds the failed lookup result, which
is undefined at that point, so the rendered message is this constant. -/
def i18nNotFoundMsg : String :=
  "Language \x27undefined\x27 not found. Please load it first."

/-- Model of I18n.get: resolve the code, look it up, throw on a miss. -/
def i18nGet (st : I18nState) (langCode : Option String) :
    Except String LangDict :=
  match st.languages.lookup (effectiveCode st langCode) with
  | some lang => .ok lang
  | none => .error i18nNotFoundMsg

/-- Model of I18n.translate: if the resolved code is not in the map, return
the key; otherwise delegate to the Language instance obtained from get. -/
def i18nTranslate (st : I18nState) (key : String) (data : List String)
    (langCode : Option String) : String :=
  let lang := effectiveCode st langCode
  match st.languages.lookup lang with
  | none => key
  | some _ =>
    match i18nGet st (some lang) with
    | .ok d => Language.translate d key data
    | .error _ => key

/-! ## File watcher guard (Config.#registerFileWatcher) -/

/-- Watcher events the store subscribes to on its chokidar watcher. -/
inductive WatchEvent where
  | change
  | add
  | unlink

/-- Decision taken by the three handlers Config.#registerFileWatcher
installs: whether the event leads to a load() call. The change and add
handlers compare the mtime reported with the event against #lastSaveTime;
the unlink handler calls load() unconditionally. -/
def watcherTriggersLoad (ev : WatchEvent) (mtime lastSaveTime : Int) : Bool :=
  match ev with
  | .change => decide (mtime > lastSaveTime)
  | .add => decide (mtime > lastSaveTime)
  | .unlink => true

/-! ## Parse-error diagnostics (getLineAndColumnNumber in src/index.ts) -/

/-- Loop of getLineAndColumnNumber: walk the lines, advancing the running
total by line length plus one (the newline), and return at the first line
whose running total exceeds the offset. The returned column is the raw
source expression `index - totalLength`, computed after the total has
already advanced past the end of the line. Falling off the loop throws
IndexOutOfBoundsError, modelled as none. -/
def lineColLoop : List (List Char) → Nat → Nat → Nat → Option (Nat × Int)
  | [], _, _, _ => none
  | l :: ls, i, total, index =>
    let total2 := total + l.length + 1
    if total2 > index then some (i + 1, (index : Int) - (total2 : Int))
    else lineColLoop ls (i + 1) total2 index

/-- Model of getLineAndColumnNumber from the source. -/
def getLineAndColumnNumber (str : String) (index : Nat) : Option (Nat × Int) :=
  lineColLoop (splitOnNewline str.data) 0 0 index

/-- Spec-side comparison definition, following the words of the spec: the
1-based line number containing the offset together with the 0-based column
of the offset within that line (offset minus the offset of the line start). -/
def specLineColLoop : List (List Char) → Nat → Nat → Nat → Option (Nat × Int)
  | [], _, _, _ => none
  | l :: ls, i, total, index =>
    if total + l.length + 1 > index then some (i + 1, (index : Int) - (total : Int))
    else specLineColLoop ls (i + 1) (total + l.length + 1) index

/-- Spec-side line and column translation of a character offset. -/
def specLineAndColumn (str : String) (index : Nat) : Option (Nat × Int) :=
  specLineColLoop (splitOnNewline str.data) 0 0 index

/-! ## Theorems for the translation layer and diagnostics -/

/-- Claim C3: a change or add event whose reported modification time is at
most the last save timestamp never triggers load; a change or add event
with a strictly greater modification time always triggers load; an unlink
event always triggers load regardless of any timestamp. -/
theorem watcher_event_policy (ev : WatchEvent) (mtime lastSaveTime : Int) :
    ((ev = .change ∨ ev = .add) → mtime ≤ lastSaveTime →
      watcherTriggersLoad ev mtime lastSaveTime = false)
    ∧ ((ev = .change ∨ ev = .add) → mtime > lastSaveTime →
      watcherTriggersLoad ev mtime lastSaveTime = true)
    ∧ (ev = .unlink → watcherTriggersLoad ev mtime lastSaveTime = true) := by
  refine ⟨fun h hle => ?_, fun h hgt => ?_, fun h => ?_⟩
  · rcases h with rfl | rfl <;>
      simp only [watcherTriggersLoad, decide_eq_false_iff_not, not_lt] <;> exact hle
  · rcases h with rfl | rfl <;>
      simp only [watcherTriggersLoad, decide_eq_true_eq] <;> exact hgt
  · subst h; rfl

/-- Witness for the watcher guard theorem at concrete timestamps. -/
theorem watcher_event_policy_witness :
    watcherTriggersLoad .change 5 7 = false
    ∧ watcherTriggersLoad .add 9 7 = true
    ∧ watcherTriggersLoad .unlink 0 7 = true :=
  ⟨(watcher_event_policy .change 5 7).1 (Or.inl rfl) (by decide),
   (watcher_event_policy .add 9 7).2.1 (Or.inr rfl) (by decide),
   (watcher_event_policy .unlink 0 7).2.2 rfl⟩

/-- Claim C5 counterexample: the claim says a key that maps to a translation
string s yields s with placeholders substituted, but for the stored empty
string the source returns the key itself (the fallback tests falsiness, not
absence), and the key is not the empty string the claim would require. -/
theorem translate_empty_counterexample :
    Language.translate [("k", "")] "k" [] = "k" ∧ ("k" : String) ≠ "" := by
  exact ⟨by decide, by decide⟩

/-- Claim C5 (amended): for a key absent from the dictionary translate
returns the key itself and never fails; for a key mapped to a non-empty
translation string it returns that string after one whole-string
replacement pass per data element, token index increasing left to right;
in particular the two examples of the spec hold, and every occurrence of a
token is replaced. -/
theorem translate_spec (dict : LangDict) (key : String) (data : List String) :
    (dict.lookup key = none → Language.translate dict key data = key)
    ∧ (∀ s, dict.lookup key = some s → s ≠ "" →
        Language.translate dict key data = substPasses 0 data s)
    ∧ Language.translate [] "missing.key" [] = "missing.key"
    ∧ Language.translate [("greeting", "Hi, \x7b0\x7d!")] "greeting" ["Ada"]
        = "Hi, Ada!"
    ∧ Language.translate [("t", "\x7b0\x7d and \x7b0\x7d")] "t" ["z"]
        = "z and z" := by
  refine ⟨fun h => ?_, fun s hs hne => ?_, by decide, by decide, by decide⟩
  · simp [Language.translate, h]
  · simp [Language.translate, hs, hne]

/-- Witness for the amended translate theorem: the absent-key branch at a
concrete dictionary. -/
theorem translate_spec_witness :
    Language.translate [("a", "b")] "missing" ["x"] = "missing" :=
  (translate_spec [("a", "b")] "missing" ["x"]).1 (by decide)

/-- Claim C9: a key stored with the empty translation string triggers the
missing-key fallback, because the source tests the looked-up value for
falsiness rather than for absence: translate returns the key itself. -/
theorem translate_empty_value_returns_key (dict : LangDict) (key : String)
    (data : List String) (h : dict.lookup key = some "") :
    Language.translate dict key data = key := by
  simp [Language.translate, h]

/-- Witness: a concrete dictionary mapping the key to the empty string. -/
theorem translate_empty_value_returns_key_witness :
    Language.translate [("k", "")] "k" ["z"] = "k" :=
  translate_empty_value_returns_key [("k", "")] "k" ["z"] (by decide)

/-- Claim C10: substitution is performed as successive whole-string
replacement passes in increasing index order, so a data value that itself
contains a later placeholder token is substituted again by the later pass:
translation consisting of token 0, with data [token 1, X], yields X rather
than the inserted token text verbatim. -/
theorem translate_rescans_inserted_tokens :
    Language.translate [("t", "\x7b0\x7d")] "t" ["\x7b1\x7d", "X"] = "X"
    ∧ ("X" : String) ≠ "\x7b1\x7d" := by
  exact ⟨by decide, by decide⟩

/-- Claim C6 evaluation: get on a code absent from the registry throws, but
the thrown message interpolates the undefined lookup result instead of the
requested code, so the message does not name the offending code (fr does
not occur in it, while the text undefined does); translate on the same code
returns the bare key without throwing, and on a loaded code it delegates to
that language. -/
theorem i18n_unknown_code_behavior :
    i18nGet ⟨[], "en"⟩ (some "fr") = .error i18nNotFoundMsg
    ∧ hasSubstringChars "fr".data i18nNotFoundMsg.data = false
    ∧ hasSubstringChars "undefined".data i18nNotFoundMsg.data = true
    ∧ i18nTranslate ⟨[], "en"⟩ "hello" [] (some "fr") = "hello"
    ∧ i18nTranslate ⟨[("fr", [("hello", "Bonjour \x7b0\x7d")])], "en"⟩
        "hello" ["Ada"] (some "fr") = "Bonjour Ada" := by
  exact ⟨rfl, by decide, by decide, by decide, by decide⟩

/-- Claim C7 evaluation at failing inputs: the source subtracts the running
total after it has been advanced past the end of the current line, so the
returned column is negative at every in-range offset; the 1-based line is
correct but the 0-based column of the claim (the spec-side definition) it
is not. At offset 0 of the text ab, newline, cd the code yields column -3
where the claim requires 0; at offset 4 it yields -2 where the claim
requires 1. -/
theorem getLineAndColumnNumber_bug :
    getLineAndColumnNumber "ab\ncd" 0 = some (1, -3)
    ∧ specLineAndColumn "ab\ncd" 0 = some (1, 0)
    ∧ getLineAndColumnNumber "ab\ncd" 4 = some (2, -2)
    ∧ specLineAndColumn "ab\ncd" 4 = some (2, 1) := by
  exact ⟨by decide, by decide, by decide, by decide⟩

/-! ## Config store lifecycle (class Config, src/index.ts, jsonc version)

The load / save / catch control flow is embedded as a transformer on an
explicit store-plus-filesystem state. File reads, writes and renames are
modelled as succeeding (spec section 7: filesystem errors propagate and are
out of scope of the recovery claims); jsonc.parse outcomes are encoded in
the file content (`JText`); Object.assign runs through the proxy set trap,
whose Reflect.set returns false when the caller-supplied underlying object
is frozen, making Object.assign throw TypeError mid-merge. -/

/-- Logical content of a text file: well-formed text with its parse value,
malformed text with its raw content, or the empty file fs.ensureFile
creates (empty content is a parse error under allowEmptyContent false). -/
inductive JText where
  | val (v : JValue)
  | bad (raw : String)
  | emptyText

/-- State of one Config store and the two paths it touches. -/
structure ConfigState where
  /-- Fields of the underlying object behind the private config reference. -/
  config : JObj
  /-- Whether the caller-supplied underlying object is frozen (non-writable
  properties), the JS runtime fact that makes Reflect.set return false. -/
  frozen : Bool
  /-- Whether the private config reference has been wrapped by the proxy of
  load (the private sentinel key read). -/
  isProxied : Bool
  /-- The private reassignment flag. -/
  reAssigning : Bool
  /-- Parse value of the private cached text blob. -/
  cache : JValue
  /-- The private last-save timestamp. -/
  lastSaveTime : Int
  /-- Content at the bound path, none when the file is absent. -/
  file : Option JText
  /-- Content at the quarantine path (bound path with the _old suffix). -/
  oldFile : Option JText

/-- Own enumerable properties of a parsed value, as Object.assign
enumerates its source: object fields in order; array element keys; string
character keys; none for primitives. Keys are strings: getKey stringifies
the key because the target (the config object) is not an array. -/
def enumProps : JValue → List (String × JValue)
  | .obj fs => fs
  | .arr xs => xs.enum.map (fun p => (toString p.1, p.2))
  | .str s => s.data.enum.map (fun p => (toString p.1, JValue.str (String.mk [p.2])))
  | _ => []

/-- Value-level effect of jsonc.modify plus jsonc.applyEdits on the cached
text for a single top-level property: defined when the cached text holds an
object at the root; editing a property into a non-object root is modelled
as a thrown error (none). -/
def cacheModify : JValue → String → JValue → Option JValue
  | .obj fs, k, v => some (JValue.obj (setKey fs k v))
  | _, _, _ => none

/-- The Object.assign loop of load running through the proxy set trap with
the reassignment flag held: each step performs Reflect.set on the
underlying object (a silent no-op returning false when it is frozen), then
the cache edit; save is suppressed by the flag. The result is an error when
the cache edit throws or when the trap returned false and Object.assign
raises TypeError; the error carries the state at the throw point. On
success the flag is released. -/
def mergeProps (s : ConfigState) : List (String × JValue) → Except ConfigState ConfigState
  | [] => .ok { s with reAssigning := false }
  | (k, v) :: rest =>
    let s1 := if s.frozen then s else { s with config := setKey s.config k v }
    match cacheModify s1.cache k v with
    | none => .error s1
    | some c =>
      if s1.frozen then .error { s1 with cache := c }
      else mergeProps { s1 with cache := c } rest

/-- Body of the try block of load for an existing file: parse (errors
throw), refresh the cache (a null parse result counts as undefined under
the loose inequality and falls back to an empty object and empty-object
cache), set the reassignment flag, wrap the config on first load, and run
the merge. -/
def loadTry (s : ConfigState) (t : JText) : Except ConfigState ConfigState :=
  match t with
  | .bad _ => .error s
  | .emptyText => .error s
  | .val v =>
    let (configData, s1) :=
      match v with
      | .null => (JValue.obj [], { s with cache := JValue.obj [] })
      | _ => (v, { s with cache := v })
    mergeProps { s1 with reAssigning := true, isProxied := true }
      (enumProps configData)

/-- Model of Config.load followed by its unconditional trailing save: if
the file exists, run the try body, catching a thrown error by warning and
renaming the file to the quarantine path; if it does not exist, create an
empty file; finally save: format the cache (value-preserving), write it to
the bound path and record the post-write modification time `now`. -/
def configLoad (s : ConfigState) (now : Int) : ConfigState :=
  let s1 :=
    match s.file with
    | some t =>
      match loadTry s t with
      | .ok s2 => s2
      | .error sErr => { sErr with oldFile := sErr.file, file := none }
    | none => { s with file := some JText.emptyText }
  { s1 with file := some (JText.val s1.cache), lastSaveTime := now }

/-- State of a store right after the constructor ran and before init: the
config references the caller-supplied default object, the default copy has
the same value, the cache is the serialization of the default, nothing is
proxied, the flag is clear and no save has been recorded. -/
def freshState (d : JObj) (frozen : Bool) (file oldFile : Option JText) :
    ConfigState :=
  { config := d, frozen := frozen, isProxied := false, reAssigning := false,
    cache := JValue.obj d, lastSaveTime := -1, file := file, oldFile := oldFile }

/-- Load over a fresh store bound to a well-formed object file. -/
def loadedFresh (d f : JObj) (old : Option JText) (now : Int) : ConfigState :=
  configLoad (freshState d false (some (JText.val (JValue.obj f))) old) now

/-- Nested two-level lookup inside an object value. -/
def lookupNested (fs : JObj) (k1 k2 : String) : Option JValue :=
  match fs.lookup k1 with
  | some (JValue.obj g) => g.lookup k2
  | _ => none

/-- Spec-side comparison definition, following the words of the spec merge:
shallow fields are overwritten, nested objects are deep-merged key by key
with the candidate winning on conflicts and default keys absent from the
candidate retained; fuel bounds the recursion depth. -/
def specDeepMerge : Nat → JObj → JObj → JObj
  | 0, _, c => c
  | fuel + 1, t, c =>
    c.foldl (fun acc p =>
      match acc.lookup p.1, p.2 with
      | some (JValue.obj tf), JValue.obj cf =>
        setKey acc p.1 (JValue.obj (specDeepMerge fuel tf cf))
      | _, _ => setKey acc p.1 p.2) t

/-- On a non-frozen store whose cache holds an object, the merge loop
completes: the config takes the shallow assignment of the properties, the
cache takes the same assignments, and the flag is released. -/
theorem mergeProps_ok (props : List (String × JValue)) (cfg c : JObj)
    (ip ra : Bool) (lst : Int) (fi ofi : Option JText) :
    mergeProps ⟨cfg, false, ip, ra, JValue.obj c, lst, fi, ofi⟩ props
      = .ok ⟨objAssign cfg props, false, ip, false,
             JValue.obj (objAssign c props), lst, fi, ofi⟩ := by
  induction props generalizing cfg c with
  | nil => rfl
  | cons p rest ih =>
    obtain ⟨k, v⟩ := p
    simpa [mergeProps, cacheModify, objAssign] using ih (setKey cfg k v) (setKey c k v)

/-- Evaluation of load over a fresh store and a well-formed object file:
the try body succeeds, the config is the shallow assignment of the file
fields over the defaults, and the trailing save writes the reformatted
cache (the file value with its own assignments re-applied). -/
theorem loadedFresh_eq (d f : JObj) (old : Option JText) (now : Int) :
    loadedFresh d f old now
      = ⟨objAssign d f, false, true, false, JValue.obj (objAssign f f), now,
         some (JText.val (JValue.obj (objAssign f f))), old⟩ := by
  simp only [loadedFresh, configLoad, loadTry, freshState]
  rw [show enumProps (JValue.obj f) = f from rfl, mergeProps_ok]

/-- Claim C1 counterexample: with default template containing a nested
object with keys x and y plus a top-level key b, and a file providing only
the nested x, the claim (and the spec deep merge following its words)
requires the loaded config to retain the nested default y and the file to
be rewritten with the filled-in default b; the code instead replaces the
nested object wholesale (y is gone) and rewrites the file with only the
keys the file already had (b is absent). -/
theorem load_merge_counterexample :
    lookupNested (specDeepMerge 3
        [("a", JValue.obj [("x", JValue.num 1), ("y", JValue.num 2)]), ("b", JValue.num 3)]
        [("a", JValue.obj [("x", JValue.num 5)])]) "a" "y" = some (JValue.num 2)
    ∧ lookupNested (loadedFresh
        [("a", JValue.obj [("x", JValue.num 1), ("y", JValue.num 2)]), ("b", JValue.num 3)]
        [("a", JValue.obj [("x", JValue.num 5)])] none 5).config "a" "y" = none
    ∧ (loadedFresh
        [("a", JValue.obj [("x", JValue.num 1), ("y", JValue.num 2)]), ("b", JValue.num 3)]
        [("a", JValue.obj [("x", JValue.num 5)])] none 5).file
        = some (JText.val (JValue.obj [("a", JValue.obj [("x", JValue.num 5)])]))
    ∧ (some (JValue.num 2) ≠ (none : Option JValue))
    ∧ ([("a", JValue.obj [("x", JValue.num 5)])] : JObj).lookup "b" = none := by
  exact ⟨rfl, rfl, rfl, by simp, rfl⟩

/-- Claim C1 (amended): over a fresh store and a successfully parsed object
file, load merges with one shallow Object.assign: every top-level file key
overwrites the default entry wholesale (nested objects replaced, not merged
recursively), top-level default keys absent from the file are retained in
memory, the reassignment flag ends clear with the proxy installed, and the
trailing save rewrites the file with exactly the keys of the file value:
the filled-in defaults are not written back. -/
theorem load_shallow_merge_spec (d f : JObj) (old : Option JText) (now : Int)
    (hf : keysNodup f) :
    (∀ k, (loadedFresh d f old now).config.lookup k = (f.lookup k).or (d.lookup k))
    ∧ (loadedFresh d f old now).file
        = some (JText.val (JValue.obj (objAssign f f)))
    ∧ (∀ k, (objAssign f f).lookup k = f.lookup k)
    ∧ (loadedFresh d f old now).reAssigning = false
    ∧ (loadedFresh d f old now).isProxied = true := by
  rw [loadedFresh_eq]
  refine ⟨fun k => lookup_objAssign d f hf k, rfl, fun k => ?_, rfl, rfl⟩
  rw [lookup_objAssign f f hf k, Option.or_self]

/-- Witness for the amended merge theorem at concrete values: the file key
wins, the default-only key is retained. -/
theorem load_shallow_merge_spec_witness :
    (loadedFresh [("a", JValue.num 1), ("b", JValue.num 3)]
        [("a", JValue.num 5)] none 9).config.lookup "a"
      = ((([("a", JValue.num 5)] : JObj).lookup "a").or
          (([("a", JValue.num 1), ("b", JValue.num 3)] : JObj).lookup "a")) :=
  (load_shallow_merge_spec [("a", JValue.num 1), ("b", JValue.num 3)]
    [("a", JValue.num 5)] none 9 (by simp [keysNodup])).1 "a"

/-- Claim C2: loading a file whose content fails to parse does not throw to
the caller (the model of load is total on this path and the thrown
JsoncSyntaxError is consumed by the catch): the offending file is renamed
to the quarantine path with its content preserved, the in-memory value
stays the default, the reassignment flag stays clear, and the trailing save
leaves a fresh file holding the default content at the original path. -/
theorem load_parse_error_recovery (d : JObj) (frozen : Bool) (raw : String)
    (old : Option JText) (now : Int) :
    (configLoad (freshState d frozen (some (JText.bad raw)) old) now).oldFile
        = some (JText.bad raw)
    ∧ (configLoad (freshState d frozen (some (JText.bad raw)) old) now).file
        = some (JText.val (JValue.obj d))
    ∧ (configLoad (freshState d frozen (some (JText.bad raw)) old) now).config = d
    ∧ (configLoad (freshState d frozen (some (JText.bad raw)) old) now).reAssigning
        = false := by
  exact ⟨rfl, rfl, rfl, rfl⟩

/-- Witness for the corrupt-file recovery at a concrete store. -/
theorem load_parse_error_recovery_witness :
    (configLoad (freshState [("n", JValue.num 0)] false
        (some (JText.bad "not json")) none) 3).file
      = some (JText.val (JValue.obj [("n", JValue.num 0)])) :=
  (load_parse_error_recovery [("n", JValue.num 0)] false "not json" none 3).2.1

/-- Claim C4 evaluation at the failing input: a store whose caller-supplied
default object is frozen, loading a well-formed file that sets an existing
key. The proxy set trap returns false (Reflect.set on a frozen object), so
Object.assign throws after the flag was set; the catch path renames the
file and load still saves, but nothing resets the flag: load returns with
the reassignment flag still true, permanently suppressing the per-write
persistence, contradicting the claim that the flag is false on every exit
path. -/
theorem reassigning_flag_left_set :
    (configLoad (freshState [("a", JValue.num 1)] true
        (some (JText.val (JValue.obj [("a", JValue.num 2)]))) none) 5).reAssigning
      = true
    ∧ (configLoad (freshState [("a", JValue.num 1)] true
        (some (JText.val (JValue.obj [("a", JValue.num 2)]))) none) 5).config
      = [("a", JValue.num 1)] := by
  exact ⟨rfl, rfl⟩

/-! ## Reference sharing across unload (constructor and Config.unload)

The constructor stores `Object.assign({}, defaultConfig)` as the private
default and keeps the caller object itself as the live config, so the two
share every nested object by reference. unload points the live config back
at the shallow copy and re-serializes it. To reason about this aliasing the
object graph is modelled as an explicit heap of addressed objects. -/

/-- Heap value: a primitive or a reference to a heap object. -/
inductive HValue where
  | num (n : Int)
  | ref (a : Nat)

/-- Heap: object addresses mapped to their field lists. -/
structure Heap where
  objs : List (Nat × List (String × HValue))

/-- Fields of the object at an address (empty for a dangling address). -/
def heapObj (h : Heap) (a : Nat) : List (String × HValue) :=
  (h.objs.lookup a).getD []

/-- In-place mutation of one field of the object at an address. -/
def heapSetField (h : Heap) (a : Nat) (k : String) (v : HValue) : Heap :=
  ⟨h.objs.map (fun p => if p.1 == a then (p.1, setKey p.2 k v) else p)⟩

/-- Allocation of a new object (the address is supplied fresh). -/
def heapAlloc (h : Heap) (a : Nat) (fields : List (String × HValue)) : Heap :=
  ⟨h.objs ++ [(a, fields)]⟩

/-- Deep snapshot of the object graph reachable from a value: the
structural value a JSON serialization would observe; fuel bounds depth. -/
def snapshotV (h : Heap) : Nat → HValue → JValue
  | _, .num n => JValue.num n
  | 0, .ref _ => JValue.null
  | fuel + 1, .ref a =>
    JValue.obj ((heapObj h a).map (fun p => (p.1, snapshotV h fuel p.2)))

/-- Config store state for the aliasing analysis: the heap, the address of
the live config object, the address of the construction-time shallow copy,
the cache value, and whether a watcher is installed. -/
structure StoreH where
  heap : Heap
  configAddr : Nat
  defaultAddr : Nat
  cacheVal : JValue
  watcherOn : Bool

/-- Constructor model: the private default is a fresh shallow copy of the
caller object (top-level fields copied, nested references shared), the
live config is the caller object itself, and the cache is the
serialization of the config. -/
def mkStore (h : Heap) (defaultAddr copyAddr : Nat) (fuel : Nat) : StoreH :=
  let h2 := heapAlloc h copyAddr (heapObj h defaultAddr)
  { heap := h2, configAddr := defaultAddr, defaultAddr := copyAddr,
    cacheVal := snapshotV h2 fuel (HValue.ref defaultAddr), watcherOn := false }

/-- Effect of registerFileWatcher: a watcher handle becomes installed. -/
def installWatcher (st : StoreH) : StoreH := { st with watcherOn := true }

/-- Resolution of a chain of property reads from the live config root, as
the nested proxies of get perform it. -/
def resolvePath (h : Heap) : Nat → List String → Option Nat
  | a, [] => some a
  | a, k :: ks =>
    match (heapObj h a).lookup k with
    | some (.ref b) => resolvePath h b ks
    | _ => none

/-- A property write through the wrapped value at the object reached by
`path`: Reflect.set mutates the resolved underlying object in place; the
cache is refreshed with the new serialization of the live config (the
value-level effect of the cache edit plus the save the trap triggers). -/
def setThroughProxy (st : StoreH) (path : List String) (k : String)
    (v : HValue) (fuel : Nat) : StoreH :=
  match resolvePath st.heap st.configAddr path with
  | none => st
  | some a =>
    let h2 := heapSetField st.heap a k v
    { st with heap := h2,
              cacheVal := snapshotV h2 fuel (HValue.ref st.configAddr) }

/-- Model of Config.unload: close and drop the watcher if one is
installed, point the live config back at the construction-time shallow
copy, and reset the cache to the serialization of that copy. -/
def unloadStore (st : StoreH) (fuel : Nat) : StoreH :=
  { st with watcherOn := false,
            configAddr := st.defaultAddr,
            cacheVal := snapshotV st.heap fuel (HValue.ref st.defaultAddr) }

/-- Nested two-level lookup inside a snapshot value. -/
def jGetNested (v : JValue) (k1 k2 : String) : Option JValue :=
  match v with
  | JValue.obj fs => lookupNested fs k1 k2
  | _ => none

/-- Top-level lookup inside a snapshot value. -/
def jGetTop (v : JValue) (k : String) : Option JValue :=
  match v with
  | JValue.obj fs => fs.lookup k
  | _ => none

/-- Scenario heap for the unload claim: the caller default template is the
object at address 0, holding a nested object (address 1) under key a and a
top-level scalar under key t. -/
def c8Heap : Heap :=
  ⟨[(0, [("a", HValue.ref 1), ("t", HValue.num 7)]),
    (1, [("x", HValue.num 1)])]⟩

/-- The original default template value supplied at construction. -/
def c8Template : JValue := snapshotV c8Heap 3 (HValue.ref 0)

/-- The store after construction (shallow copy at address 2), watcher
installation, a top-level write setting t to 8, and a nested write setting
a.x to 2 through the wrapped value. -/
def c8Store : StoreH :=
  setThroughProxy
    (setThroughProxy (installWatcher (mkStore c8Heap 0 2 3)) [] "t"
      (HValue.num 8) 3)
    ["a"] "x" (HValue.num 2) 3

/-- The in-memory value right before unload. -/
def c8ValueBefore : JValue :=
  snapshotV c8Store.heap 3 (HValue.ref c8Store.configAddr)

/-- The store after unload. -/
def c8PostUnload : StoreH := unloadStore c8Store 3

/-- The in-memory value right after unload. -/
def c8ValueAfter : JValue :=
  snapshotV c8PostUnload.heap 3 (HValue.ref c8PostUnload.configAddr)

/-- Claim C8 counterexample: after a nested mutation through the wrapped
value, unload does stop the watcher, but the in-memory value does not
equal the original default template at every nesting depth: the nested key
a.x reads 2 (the mutated value) where the template holds 1, because the
construction-time copy is shallow and shares the nested object. -/
theorem unload_nested_mutation_counterexample :
    c8PostUnload.watcherOn = false
    ∧ jGetNested c8Template "a" "x" = some (JValue.num 1)
    ∧ jGetNested c8ValueAfter "a" "x" = some (JValue.num 2)
    ∧ some (JValue.num 2) ≠ some (JValue.num 1) := by
  exact ⟨rfl, rfl, rfl, by simp⟩

/-- Claim C8 (amended): unload stops the watcher and resets the in-memory
value to the construction-time shallow copy of the default template,
resetting the cache to the serialization of that copy: top-level
mutations performed since construction are reverted (t reads 8 before
unload and the original 7 after), while mutations inside nested objects
persist, the nested objects being shared by reference with the copy. -/
theorem unload_resets_to_shallow_copy (st : StoreH) (fuel : Nat) :
    (unloadStore st fuel).watcherOn = false
    ∧ (unloadStore st fuel).configAddr = st.defaultAddr
    ∧ (unloadStore st fuel).cacheVal
        = snapshotV st.heap fuel (HValue.ref st.defaultAddr)
    ∧ jGetTop c8ValueBefore "t" = some (JValue.num 8)
    ∧ jGetTop c8ValueAfter "t" = some (JValue.num 7)
    ∧ jGetNested c8ValueAfter "a" "x" = some (JValue.num 2) := by
  exact ⟨rfl, rfl, rfl, rfl, rfl, rfl⟩

/-- Witness applying the unload reset theorem at the concrete scenario. -/
theorem unload_resets_to_shallow_copy_witness :
    (unloadStore c8Store 3).configAddr = c8Store.defaultAddr :=
  (unload_resets_to_shallow_copy c8Store 3).2.1
